import Mathlib

/-!
Shallow embedding of the recipe-tree recombination engine of
src/cooking_up_creativity/src/generate_ideas/tree_edit_distance.py.

Python dicts mapping node names to node records are embedded as ordered
association lists (Python dicts preserve insertion order; assignment to an
existing key keeps its position, assignment to a fresh key appends).
Python string splitting is embedded by explicit character-list splitting;
the source always splits operation strings that are built with single
spaces and nonempty tokens, for which split() and split(" ") agree.
Places where the Python code would raise (KeyError on a missing key,
IndexError on a short split) are embedded with defaults; all concrete
inputs evaluated below stay away from those crash points.
-/

namespace CookingTED

/-- INFTY from src/cooking_up_creativity/src/constants.py. -/
def INFTY : Int := 100000

/-- Splits a character list at every occurrence of the separator, keeping
empty chunks, like Python str.split with an explicit separator. -/
def splitCharsAux (sep : Char) : List Char → List Char → List (List Char)
  | [], acc => [acc.reverse]
  | x :: xs, acc =>
    if x = sep then acc.reverse :: splitCharsAux sep xs []
    else splitCharsAux sep xs (x :: acc)

/-- Python s.split(" ") (the source builds operation strings with single
spaces, where this agrees with s.split()). -/
def splitOnSpace (s : String) : List String :=
  (splitCharsAux ' ' s.data []).map String.mk

/-- Python s.split(an underscore), used on formatted zss node labels. -/
def splitOnUnderscore (s : String) : List String :=
  (splitCharsAux '_' s.data []).map String.mk

/-- Python s.split(","), used on the children list of an insert-father
operation. -/
def splitOnComma (s : String) : List String :=
  (splitCharsAux ',' s.data []).map String.mk

/-- Python s.startswith(p). -/
def startsWithStr (s p : String) : Bool :=
  p.data.isPrefixOf s.data

/-- Python lexicographic string comparison (strict, by code point). -/
def charListLt : List Char → List Char → Bool
  | [], [] => false
  | [], _ :: _ => true
  | _ :: _, [] => false
  | a :: as, b :: bs =>
    if a.toNat < b.toNat then true
    else if a.toNat = b.toNat then charListLt as bs
    else false

/-- a is at most b in Python string order. -/
def strLe (a b : String) : Bool := !(charListLt b.data a.data)

/-- The i-th underscore-separated field of a formatted zss label
(spltd[i] in update_cost); out-of-range reads, which raise in Python,
default to the empty string. -/
def label_field (s : String) (i : Nat) : String :=
  (splitOnUnderscore s).getD i ""

/-- Removes every digit character, as the listcomp in update_cost does. -/
def stripDigits (s : String) : String :=
  String.mk (s.data.filter (fun c => !c.isDigit))

/-- update_cost (tree_edit_distance.py lines 1097-1143), as a function of
the two formatted zss node label strings. -/
def update_cost (node_text1 node_text2 : String) : Int :=
  if label_field node_text1 1 ≠ label_field node_text2 1 then INFTY
  else if stripDigits (label_field node_text1 0) = stripDigits (label_field node_text2 0) then 0
  else if label_field node_text1 1 = "action" then
    (if label_field node_text1 2 = label_field node_text2 2 ∧ label_field node_text1 2 ≠ "None" then 1
     else if label_field node_text1 3 = label_field node_text2 3 ∧ label_field node_text1 3 ≠ "None" then 5
     else INFTY)
  else
    (if label_field node_text1 2 = label_field node_text2 2 then 5 else INFTY)

/-- Lower bound of the random cut index drawn in create_single_combination
(tree_edit_distance.py line 1224): 1*len(short_operations)//6, with Python
floor division. Python randint is inclusive at both ends. -/
def cut_index_lo (n : Nat) : Nat := 1 * n / 6

/-- Upper bound of the random cut index drawn in create_single_combination
(tree_edit_distance.py line 1224): 5*len(short_operations)//6. -/
def cut_index_hi (n : Nat) : Nat := 5 * n / 6

/-- A node record of a tree_dict. The marked field is an Option because
tree-A nodes have no such dictionary key until the tracking-tree builder
creates or sets one. -/
structure TNode where
  label : String
  type : String
  abstr : String
  root : Bool
  parent : Option String
  children : List String
  marked : Option Bool
deriving Repr, DecidableEq

/-- A Python tree_dict: an insertion-ordered map from node name to record. -/
abbrev TreeDict := List (String × TNode)

/-- Dictionary read, tree_dict[k]. -/
def dictLookup : TreeDict → String → Option TNode
  | [], _ => none
  | (k1, v1) :: rest, k => if k1 = k then some v1 else dictLookup rest k

/-- Python key-membership test, k in tree_dict. -/
def dictMem (d : TreeDict) (k : String) : Bool :=
  (dictLookup d k).isSome

/-- Dictionary write, tree_dict[k] = v: replaces in place when the key is
present, appends otherwise (Python dict insertion-order semantics). -/
def dictSet : TreeDict → String → TNode → TreeDict
  | [], k, v => [(k, v)]
  | (k1, v1) :: rest, k, v =>
    if k1 = k then (k1, v) :: rest else (k1, v1) :: dictSet rest k v

/-- Field update of an existing entry, tree_dict[k][field] = x; a missing
key would raise in Python and is embedded as a no-op. -/
def dictModify : TreeDict → String → (TNode → TNode) → TreeDict
  | [], _, _ => []
  | (k1, v1) :: rest, k, f =>
    if k1 = k then (k1, f v1) :: rest else (k1, v1) :: dictModify rest k f

/-- Python del tree_dict[k]. -/
def dictErase (d : TreeDict) (k : String) : TreeDict :=
  d.filter (fun p => !(p.1 = k : Bool))

/-- The record used where Python would raise KeyError on a missing node. -/
def defaultNode : TNode :=
  { label := "", type := "", abstr := "", root := false,
    parent := none, children := [], marked := none }

/-- tree_dict[k] with the crash-point default. -/
def nodeOfD (d : TreeDict) (k : String) : TNode :=
  (dictLookup d k).getD defaultNode

/-- Number of nodes whose root flag is set. -/
def rootCount (d : TreeDict) : Nat :=
  d.countP (fun p => p.2.root)

/-- Stable insertion of a node name into a list sorted by node label,
matching Python sorted(-, key=label) which is a stable sort. -/
def insertByLabel (d : TreeDict) (x : String) : List String → List String
  | [] => [x]
  | y :: ys =>
    if strLe (nodeOfD d x).label (nodeOfD d y).label then x :: y :: ys
    else y :: insertByLabel d x ys

/-- Python sorted(names, key=lambda x: tree_dict[x]["label"]). -/
def sortKeysByLabel (d : TreeDict) (l : List String) : List String :=
  l.foldr (insertByLabel d) []

/-- update_node_children_in_tree_dict (tree_edit_distance.py lines
666-681): drop to_remove from the children of node_name, append to_add,
re-sort by label.  A falsy node_name (Python None) is a no-op, as is a
missing key (a Python crash point). -/
def update_node_children_in_tree_dict (d : TreeDict) (node_name : Option String)
    (to_remove to_add : List String) : TreeDict :=
  match node_name with
  | none => d
  | some n =>
    match dictLookup d n with
    | none => d
    | some nd =>
      let cs := (nd.children.filter (fun c => !(to_remove.contains c))) ++ to_add
      dictSet d n { nd with children := sortKeysByLabel d cs }

/-- Reading the key just written. -/
theorem dictLookup_set_self (d : TreeDict) (k : String) (v : TNode) :
    dictLookup (dictSet d k v) k = some v := by
  induction d with
  | nil => simp [dictSet, dictLookup]
  | cons p rest ih =>
    obtain ⟨k1, v1⟩ := p
    by_cases h : k1 = k
    · simp [dictSet, h, dictLookup]
    · simp [dictSet, h, dictLookup, ih]

/-- Writing one key leaves reads of other keys unchanged. -/
theorem dictLookup_set_ne (d : TreeDict) (k k2 : String) (v : TNode) (h : k2 ≠ k) :
    dictLookup (dictSet d k v) k2 = dictLookup d k2 := by
  induction d with
  | nil => simp [dictSet, dictLookup, Ne.symm h]
  | cons p rest ih =>
    obtain ⟨k1, v1⟩ := p
    by_cases h1 : k1 = k
    · subst h1
      simp [dictSet, dictLookup, Ne.symm h]
    · simp [dictSet, h1, dictLookup, ih]

/-- Reading the key just field-modified. -/
theorem dictLookup_modify_self (d : TreeDict) (k : String) (f : TNode → TNode) :
    dictLookup (dictModify d k f) k = (dictLookup d k).map f := by
  induction d with
  | nil => simp [dictModify, dictLookup]
  | cons p rest ih =>
    obtain ⟨k1, v1⟩ := p
    by_cases h : k1 = k
    · simp [dictModify, h, dictLookup]
    · simp [dictModify, h, dictLookup, ih]

/-- Field-modifying one key leaves reads of other keys unchanged. -/
theorem dictLookup_modify_ne (d : TreeDict) (k k2 : String) (f : TNode → TNode) (h : k2 ≠ k) :
    dictLookup (dictModify d k f) k2 = dictLookup d k2 := by
  induction d with
  | nil => simp [dictModify, dictLookup]
  | cons p rest ih =>
    obtain ⟨k1, v1⟩ := p
    by_cases h1 : k1 = k
    · subst h1
      simp [dictModify, dictLookup, Ne.symm h]
    · simp [dictModify, h1, dictLookup, ih]

/-- How dictErase steps over a head entry. -/
theorem dictErase_cons (k1 : String) (v1 : TNode) (rest : TreeDict) (k : String) :
    dictErase ((k1, v1) :: rest) k
      = if k1 = k then dictErase rest k else (k1, v1) :: dictErase rest k := by
  by_cases h : k1 = k <;> simp [dictErase, List.filter_cons, h]

/-- Deleting a key makes it unreadable. -/
theorem dictLookup_erase_self (d : TreeDict) (k : String) :
    dictLookup (dictErase d k) k = none := by
  induction d with
  | nil => rfl
  | cons p rest ih =>
    obtain ⟨k1, v1⟩ := p
    rw [dictErase_cons]
    by_cases h : k1 = k
    · simp [h, ih]
    · simp [h, dictLookup, ih]

/-- Deleting one key leaves reads of other keys unchanged. -/
theorem dictLookup_erase_ne (d : TreeDict) (k k2 : String) (h : k2 ≠ k) :
    dictLookup (dictErase d k) k2 = dictLookup d k2 := by
  induction d with
  | nil => rfl
  | cons p rest ih =>
    obtain ⟨k1, v1⟩ := p
    rw [dictErase_cons]
    by_cases h1 : k1 = k
    · subst h1
      simp [dictLookup, Ne.symm h, ih]
    · simp [h1, dictLookup, ih]

/-- update_node_children_in_tree_dict only rewrites a children list: the
marked field of every node is untouched. -/
theorem update_children_marked (d : TreeDict) (p : Option String)
    (tr ta : List String) (k : String) :
    (dictLookup (update_node_children_in_tree_dict d p tr ta) k).map TNode.marked
      = (dictLookup d k).map TNode.marked := by
  cases p with
  | none => rfl
  | some n =>
    cases h : dictLookup d n with
    | none => simp [update_node_children_in_tree_dict, h]
    | some nd =>
      simp only [update_node_children_in_tree_dict, h]
      by_cases hk : k = n
      · subst hk
        rw [dictLookup_set_self, h]
        rfl
      · rw [dictLookup_set_ne _ _ _ _ hk]

/-- update_node_children_in_tree_dict also leaves every parent pointer and
root flag untouched. -/
theorem update_children_parent_root (d : TreeDict) (p : Option String)
    (tr ta : List String) (k : String) :
    (dictLookup (update_node_children_in_tree_dict d p tr ta) k).map
        (fun nd => (nd.parent, nd.root))
      = (dictLookup d k).map (fun nd => (nd.parent, nd.root)) := by
  cases p with
  | none => rfl
  | some n =>
    cases h : dictLookup d n with
    | none => simp [update_node_children_in_tree_dict, h]
    | some nd =>
      simp only [update_node_children_in_tree_dict, h]
      by_cases hk : k = n
      · subst hk
        rw [dictLookup_set_self, h]
        rfl
      · rw [dictLookup_set_ne _ _ _ _ hk]

/-- Field modification preserves key presence. -/
theorem dictMem_modify (d : TreeDict) (k k2 : String) (f : TNode → TNode) :
    (dictLookup (dictModify d k f) k2).isSome = (dictLookup d k2).isSome := by
  by_cases h : k2 = k
  · subst h
    rw [dictLookup_modify_self]
    cases dictLookup d k2 <;> rfl
  · rw [dictLookup_modify_ne _ _ _ _ h]

/-- C9: for all zss node label strings, update_cost is symmetric:
update_cost(a, b) equals update_cost(b, a). -/
theorem update_cost_symmetric (s1 s2 : String) :
    update_cost s1 s2 = update_cost s2 s1 := by
  unfold update_cost
  split_ifs <;> simp_all

/-- C2 counterexample: both labels are action nodes whose verb is missing
from the category table, so direct and general categories are both the
string None.  Their stripped labels differ and their general categories
match, so the claim as stated forces cost 5; the code (line 1133) also
requires the general category to differ from None and returns INFTY. -/
theorem update_cost_counterexample :
    update_cost "foo_action_None_None" "bar_action_None_None" = INFTY ∧
    (INFTY : Int) ≠ 5 := by
  constructor
  · decide
  · decide

/-- C2 amended: update_cost returns INFTY when types differ; 0 iff types
match and digit-stripped labels are equal; for action nodes with unequal
stripped labels, 1 when direct verb categories match and are not None,
else 5 when general verb categories match AND ARE NOT None (this last
non-None condition is the amendment), else INFTY; for ingredient nodes
with unequal stripped labels, 5 when abstractions match, else INFTY. -/
theorem update_cost_spec (s1 s2 : String) :
    (label_field s1 1 ≠ label_field s2 1 → update_cost s1 s2 = INFTY) ∧
    (update_cost s1 s2 = 0 ↔
      (label_field s1 1 = label_field s2 1 ∧
       stripDigits (label_field s1 0) = stripDigits (label_field s2 0))) ∧
    (label_field s1 1 = label_field s2 1 → label_field s1 1 = "action" →
      stripDigits (label_field s1 0) ≠ stripDigits (label_field s2 0) →
      update_cost s1 s2 =
        (if label_field s1 2 = label_field s2 2 ∧ label_field s1 2 ≠ "None" then 1
         else if label_field s1 3 = label_field s2 3 ∧ label_field s1 3 ≠ "None" then 5
         else INFTY)) ∧
    (label_field s1 1 = label_field s2 1 → label_field s1 1 = "ingredient" →
      stripDigits (label_field s1 0) ≠ stripDigits (label_field s2 0) →
      update_cost s1 s2 =
        (if label_field s1 2 = label_field s2 2 then 5 else INFTY)) := by
  refine ⟨?_, ?_, ?_, ?_⟩
  · unfold update_cost INFTY
    split_ifs <;> simp_all
  · unfold update_cost INFTY
    split_ifs <;> simp_all
  · unfold update_cost INFTY
    split_ifs <;> simp_all
  · intro ht hi hl
    unfold update_cost
    rw [← ht, hi]
    simp [hl]

/-- Witness for update_cost_spec at concrete action labels with matching
non-None direct categories: the characterization gives cost 1. -/
theorem update_cost_spec_witness :
    update_cost "mix_action_catA_genA" "stir_action_catA_genA" = 1 := by
  have h := (update_cost_spec "mix_action_catA_genA" "stir_action_catA_genA").2.2.1
    (by decide) (by decide) (by decide)
  rw [h]
  decide

/-- C5 counterexample: with a single scheduled operation (N = 1), the
bounds passed to random.randint in create_single_combination are
1*1//6 = 0 and 5*1//6 = 0, so the drawn cut index is 0 — yet the claim
says the index lies in the range starting at the ceiling of N/6 = 1 and
is never 0. -/
theorem cut_index_counterexample :
    cut_index_lo 1 = 0 ∧ cut_index_hi 1 = 0 ∧ ¬ ((1 + 5) / 6 ≤ 0 ∧ (0 : Nat) ≠ 0) := by
  decide

/-- C5 amended: for a scheduled operation list of length N at least 1, the
cut index drawn by create_single_combination lies in the floor-division
range from N/6 to 5*N/6 inclusive; it is never N (so the near-target
extreme is avoided), but it can be 0 when N is at most 5. -/
theorem cut_index_in_range (N k : Nat) (hN : 1 ≤ N)
    (hlo : cut_index_lo N ≤ k) (hhi : k ≤ cut_index_hi N) :
    N / 6 ≤ k ∧ k ≤ 5 * N / 6 ∧ k < N := by
  simp only [cut_index_lo, cut_index_hi] at hlo hhi
  refine ⟨by omega, by omega, by omega⟩

/-- Witness for cut_index_in_range at N = 6, k = 1. -/
theorem cut_index_in_range_witness : 6 / 6 ≤ 1 ∧ 1 ≤ 5 * 6 / 6 ∧ 1 < 6 :=
  cut_index_in_range 6 1 (by decide) (by decide) (by decide)

/-- One iteration of the loop body of build_tracking_tree_dict_for_ops
(tree_edit_distance.py lines 705-753), dispatching on the operation
string exactly as the Python startswith/split tests do. -/
def buildStep (tree_dict2 : TreeDict) (tracking_tree : TreeDict) (operation : String) : TreeDict :=
  let spltd := splitOnSpace operation
  let node_name := spltd.getD 1 ""
  if startsWithStr operation "insert" then
    let n2 := nodeOfD tree_dict2 node_name
    if spltd.length = 2 then
      dictSet tracking_tree node_name
        { label := n2.label, children := [], root := false, parent := none,
          marked := some false, type := n2.type, abstr := n2.abstr }
    else if spltd.getD 2 "" = "child" then
      let parent_name := spltd.getD 4 ""
      let t1 := dictSet tracking_tree node_name
        { label := n2.label, children := [], root := false, parent := some parent_name,
          marked := some false, type := n2.type, abstr := n2.abstr }
      update_node_children_in_tree_dict t1 (some parent_name) [] [node_name]
    else
      let children_names := splitOnComma (spltd.getD 4 "")
      let root_children := children_names.filter (fun cn => (nodeOfD tracking_tree cn).root)
      let t1 := match root_children with
        | [] => tracking_tree
        | rc :: _ => dictModify tracking_tree rc (fun nd => { nd with root := false })
      let is_root := !root_children.isEmpty
      let children_sorted := sortKeysByLabel t1 children_names
      let folded := children_sorted.foldl
        (fun (acc : TreeDict × Option String) cn =>
          let par := match (nodeOfD acc.1 cn).parent with
            | some p => some p
            | none => acc.2
          (dictModify acc.1 cn (fun nd => { nd with parent := some node_name }), par))
        (t1, none)
      let t2 := dictSet folded.1 node_name
        { label := n2.label, children := children_sorted, root := is_root,
          parent := folded.2, marked := some false, type := n2.type, abstr := n2.abstr }
      update_node_children_in_tree_dict t2 folded.2 children_sorted [node_name]
  else if startsWithStr operation "remove" then
    dictModify tracking_tree node_name (fun nd => { nd with marked := some true })
  else if startsWithStr operation "update" then
    let updated_node_name := spltd.getD 4 ""
    let u2 := nodeOfD tree_dict2 updated_node_name
    dictModify tracking_tree node_name
      (fun nd => { nd with marked := some true,
                           label := u2.label, type := u2.type, abstr := u2.abstr })
  else if startsWithStr operation "match" then
    dictModify tracking_tree node_name (fun nd => { nd with marked := some true })
  else
    let orphan_name := spltd.getD 0 ""
    let parent_name := spltd.getD 3 ""
    let t1 := dictModify tracking_tree orphan_name (fun nd => { nd with parent := some parent_name })
    update_node_children_in_tree_dict t1 (some parent_name) [] [orphan_name]

/-- build_tracking_tree_dict_for_ops (tree_edit_distance.py lines
684-755): starting from a copy of tree_dict1, replay the full concrete
operation list. -/
def build_tracking_tree_dict_for_ops (all_operations : List String)
    (tree_dict1 tree_dict2 : TreeDict) : TreeDict :=
  all_operations.foldl (buildStep tree_dict2) tree_dict1

/-- get_concise_operations (tree_edit_distance.py lines 817-837). -/
def get_concise_operations (all_operations : List String) : List String :=
  all_operations.foldl (fun acc operation =>
    let spltd := splitOnSpace operation
    let node_name := spltd.getD 1 ""
    if startsWithStr operation "insert" then acc ++ ["ADD " ++ node_name]
    else if startsWithStr operation "remove" then acc ++ ["DEL " ++ node_name]
    else if startsWithStr operation "update" then
      acc ++ ["UPDATE " ++ node_name ++ " " ++ spltd.getD 4 ""]
    else acc) []

/-- A one-node tree A as prepared for recombination (suffix a). -/
def sampleTreeA : TreeDict :=
  [("x_a", { label := "x", type := "ingredient", abstr := "veg", root := true,
             parent := none, children := [], marked := none })]

/-- A one-node tree B as prepared for recombination (suffix b). -/
def sampleTreeB : TreeDict :=
  [("x_b", { label := "x", type := "ingredient", abstr := "veg", root := true,
             parent := none, children := [], marked := none })]

/-- C4 counterexample: replaying the concrete operation list consisting of
the single operation match x_a to x_b, the builder itself sets
marked = True on x_a (line 748), so the returned tracking topology has a
node whose marked field is true, not false. -/
theorem build_marked_counterexample :
    (dictLookup (build_tracking_tree_dict_for_ops ["match x_a to x_b"] sampleTreeA sampleTreeB)
        "x_a").map TNode.marked = some (some true) := by
  decide

/-- C4 amended: in the tracking topology, only the nodes created by the
builder for insert operations carry marked = false; the builder itself
already flips marked to true on every node named by a remove, update or
match operation (tree-A nodes untouched by such operations keep no marked
field at all, since the working copy starts as a plain copy of tree A). -/
theorem buildStep_marked (tree2 tracking : TreeDict) (op n : String) :
    (startsWithStr op "insert" = true → splitOnSpace op = ["insert", n] →
      (dictLookup (buildStep tree2 tracking op) n).map TNode.marked = some (some false)) ∧
    (∀ p, startsWithStr op "insert" = true →
      splitOnSpace op = ["insert", n, "child", "of", p] →
      (dictLookup (buildStep tree2 tracking op) n).map TNode.marked = some (some false)) ∧
    (∀ cs, startsWithStr op "insert" = true →
      splitOnSpace op = ["insert", n, "father", "of", cs] →
      (dictLookup (buildStep tree2 tracking op) n).map TNode.marked = some (some false)) ∧
    (startsWithStr op "insert" = false → startsWithStr op "remove" = true →
      (splitOnSpace op).getD 1 "" = n → dictMem tracking n = true →
      (dictLookup (buildStep tree2 tracking op) n).map TNode.marked = some (some true)) ∧
    (startsWithStr op "insert" = false → startsWithStr op "remove" = false →
      startsWithStr op "update" = true →
      (splitOnSpace op).getD 1 "" = n → dictMem tracking n = true →
      (dictLookup (buildStep tree2 tracking op) n).map TNode.marked = some (some true)) ∧
    (startsWithStr op "insert" = false → startsWithStr op "remove" = false →
      startsWithStr op "update" = false → startsWithStr op "match" = true →
      (splitOnSpace op).getD 1 "" = n → dictMem tracking n = true →
      (dictLookup (buildStep tree2 tracking op) n).map TNode.marked = some (some true)) := by
  refine ⟨?_, ?_, ?_, ?_, ?_, ?_⟩
  · intro hs hsp
    unfold buildStep
    rw [hsp, hs]
    simp only [if_true, List.length_cons, List.length_nil, List.getD_cons_succ, List.getD_cons_zero]
    rw [dictLookup_set_self]
    rfl
  · intro p hs hsp
    unfold buildStep
    rw [hsp, hs]
    simp only [if_true, List.length_cons, List.length_nil, List.getD_cons_succ, List.getD_cons_zero]
    rw [if_neg (by norm_num)]
    rw [update_children_marked, dictLookup_set_self]
    rfl
  · intro cs hs hsp
    unfold buildStep
    rw [hsp, hs]
    simp only [if_true, List.length_cons, List.length_nil, List.getD_cons_succ, List.getD_cons_zero]
    rw [if_neg (by norm_num), if_neg (by decide)]
    rw [update_children_marked, dictLookup_set_self]
    rfl
  · intro hs hr hn hm
    obtain ⟨nd, hnd⟩ := Option.isSome_iff_exists.mp hm
    simp only [buildStep, hs, hr, hn, Bool.false_eq_true, if_false, if_true]
    rw [dictLookup_modify_self, hnd]
    rfl
  · intro hs hr hu hn hm
    obtain ⟨nd, hnd⟩ := Option.isSome_iff_exists.mp hm
    simp only [buildStep, hs, hr, hu, hn, Bool.false_eq_true, if_false, if_true]
    rw [dictLookup_modify_self, hnd]
    rfl
  · intro hs hr hu hma hn hm
    obtain ⟨nd, hnd⟩ := Option.isSome_iff_exists.mp hm
    simp only [buildStep, hs, hr, hu, hma, hn, Bool.false_eq_true, if_false, if_true]
    rw [dictLookup_modify_self, hnd]
    rfl

/-- Witness for buildStep_marked: a remove operation on a present node
leaves it with marked = true in the step result. -/
theorem buildStep_marked_witness :
    (dictLookup (buildStep sampleTreeB [("r_a", defaultNode)] "remove r_a") "r_a").map TNode.marked
      = some (some true) :=
  (buildStep_marked sampleTreeB [("r_a", defaultNode)] "remove r_a" "r_a").2.2.2.1
    (by decide) (by decide) (by decide) (by decide)

/-- handle_same_labels (tree_edit_distance.py lines 992-1013): nodes that
share a label get the suffix 1, 2, ... appended in dictionary order.  The
grouping pass runs before any renaming, so every rename is computed
against the original labels. -/
def handle_same_labels (d : TreeDict) : TreeDict :=
  d.map (fun p =>
    let same := (d.filter (fun q => q.2.label = p.2.label)).map Prod.fst
    if 1 < same.length then
      (p.1, { p.2 with label := p.2.label ++ toString (same.indexOf p.1 + 1) })
    else p)

/-- add_suffix_to_all_node_names (tree_edit_distance.py lines 1016-1037). -/
def add_suffix_to_all_node_names (d : TreeDict) (suffix : String) : TreeDict :=
  d.map (fun p =>
    (p.1 ++ "_" ++ suffix,
     { p.2 with parent := p.2.parent.map (fun q => q ++ "_" ++ suffix),
                children := p.2.children.map (fun c => c ++ "_" ++ suffix) }))

/-- order_node_children_lexicographically (tree_edit_distance.py lines
1040-1057). -/
def order_node_children_lexicographically (d : TreeDict) : TreeDict :=
  d.map (fun p => (p.1, { p.2 with children := sortKeysByLabel d p.2.children }))

/-- prepare_tree_dict_for_recombination (tree_edit_distance.py lines
1060-1074): the only processing an input tree receives before the
Distance Engine runs. -/
def prepare_tree_dict_for_recombination (d : TreeDict) (suffix : String) : TreeDict :=
  order_node_children_lexicographically
    (add_suffix_to_all_node_names (handle_same_labels d) suffix)

/-- An input tree violating the single-root invariant: two root nodes. -/
def twoRootTree : TreeDict :=
  [("p", { label := "p", type := "ingredient", abstr := "x", root := true,
           parent := none, children := [], marked := none }),
   ("q", { label := "q", type := "ingredient", abstr := "y", root := true,
           parent := none, children := [], marked := none })]

/-- C8 counterexample: prepare_tree_dict_for_recombination is the only
gate between caller input and the Distance Engine, and on a two-root tree
it returns normally with both root flags intact — no rejection, no error
signal of any kind is raised before the Distance Engine runs. -/
theorem prepare_accepts_invalid_tree :
    prepare_tree_dict_for_recombination twoRootTree "a"
      = [("p_a", { label := "p", type := "ingredient", abstr := "x", root := true,
                   parent := none, children := [], marked := none }),
         ("q_a", { label := "q", type := "ingredient", abstr := "y", root := true,
                   parent := none, children := [], marked := none })] ∧
    rootCount (prepare_tree_dict_for_recombination twoRootTree "a") = 2 := by
  constructor
  · rfl
  · rfl

/-- C8 amended: the engine performs no input validation at all.
prepare_tree_dict_for_recombination is total and preserves every root
flag, so a tree with multiple roots (or any other invariant violation
expressible through root flags) flows into the Distance Engine unchanged
in that respect; rejecting malformed trees is left entirely to the
upstream ingestion collaborator. -/
theorem prepare_preserves_root_count (d : TreeDict) (s : String) :
    rootCount (prepare_tree_dict_for_recombination d s) = rootCount d := by
  unfold prepare_tree_dict_for_recombination rootCount
  unfold order_node_children_lexicographically add_suffix_to_all_node_names handle_same_labels
  rw [List.countP_map, List.countP_map, List.countP_map]
  apply List.countP_congr
  intro p _
  simp only [Function.comp]
  split <;> rfl

/-- get_nearest_marked_descendants_rec (tree_edit_distance.py lines
758-776): walk down from node_name, stopping at the first marked node on
each branch.  The Python recursion is over the tree links; fuel bounds it
by the dictionary size (enough for every acyclic tracking tree, the only
inputs on which the Python recursion terminates). -/
def nearestMarkedDescRec (tracking_tree : TreeDict) : Nat → String → List String
  | 0, _ => []
  | fuel + 1, node_name =>
    (nodeOfD tracking_tree node_name).children.flatMap (fun child =>
      if ((nodeOfD tracking_tree child).marked.getD false) then [child]
      else nearestMarkedDescRec tracking_tree fuel child)

/-- get_nearest_marked_descendants (tree_edit_distance.py lines 779-793):
the collected set of nearest marked descendants, sorted by label (the
Python code passes the list through set(), so only the set matters before
the sort). -/
def get_nearest_marked_descendants (tracking_tree : TreeDict) (node_name : String) : List String :=
  sortKeysByLabel tracking_tree
    ((nearestMarkedDescRec tracking_tree tracking_tree.length node_name).dedup)

/-- get_nearest_marked_ancestor (tree_edit_distance.py lines 796-814):
walk up the parent chain to the first marked node; fuel bounds the climb
by the dictionary size. -/
def nearestMarkedAncRec (tracking_tree : TreeDict) : Nat → String → Option String
  | 0, _ => none
  | fuel + 1, node_name =>
    match (nodeOfD tracking_tree node_name).parent with
    | none => none
    | some parent =>
      if ((nodeOfD tracking_tree parent).marked.getD false) then some parent
      else nearestMarkedAncRec tracking_tree fuel parent

/-- Entry point matching get_nearest_marked_ancestor. -/
def get_nearest_marked_ancestor (tracking_tree : TreeDict) (node_name : String) : Option String :=
  nearestMarkedAncRec tracking_tree tracking_tree.length node_name

/-- The reparenting loop of the DEL branch of handle_one_operation
(lines 895-900): each child of the removed node gets the removed node
former parent; with no parent the child is promoted to root. -/
def delChildStep (par : Option String) (acc : TreeDict) (child : String) : TreeDict :=
  let acc2 := dictModify acc child (fun c => { c with parent := par })
  match par with
  | some _ => acc2
  | none => dictModify acc2 child (fun c => { c with root := true })

/-- The whole reparenting loop of the DEL branch. -/
def delChildLoop (par : Option String) (children : List String) (d : TreeDict) : TreeDict :=
  children.foldl (delChildStep par) d

/-- The mirrored tracking-side reparenting loop of the DEL branch
(lines 908-909), which sets parents but never root flags. -/
def trackReparentLoop (par : Option String) (children : List String) (d : TreeDict) : TreeDict :=
  children.foldl (fun acc child =>
    dictModify acc child (fun c => { c with parent := par })) d

/-- The tuple returned by handle_one_operation together with the final
values of the two dictionaries it mutates in place. -/
structure HandleResult where
  postponed : Option String
  added : Option String
  removed : Option String
  removed_edges : Option (List (String × String))
  updated : Option String
  intermediate : TreeDict
  tracking : TreeDict

/-- handle_one_operation (tree_edit_distance.py lines 840-917). -/
def handle_one_operation (intermediate_tree : TreeDict) (short_operation : String)
    (tracking_tree : TreeDict) : HandleResult :=
  let spltd := splitOnSpace short_operation
  let node_name := spltd.getD 1 ""
  if spltd.getD 0 "" = "ADD" then
    let first_marked_children := get_nearest_marked_descendants tracking_tree node_name
    let first_marked_ancestor := get_nearest_marked_ancestor tracking_tree node_name
    if !first_marked_children.isEmpty || first_marked_ancestor.isSome then
      let tn := nodeOfD tracking_tree node_name
      let inter1 := dictSet intermediate_tree node_name
        { label := tn.label, children := [], root := false, parent := none,
          type := tn.type, abstr := tn.abstr, marked := none }
      let inter2 :=
        if first_marked_children.isEmpty then inter1
        else
          let interA := dictModify inter1 node_name
            (fun nd => { nd with children := first_marked_children })
          first_marked_children.foldl (fun acc child =>
            let acc2 :=
              if (nodeOfD acc child).root then
                dictModify (dictModify acc child (fun c => { c with root := false }))
                  node_name (fun nd => { nd with root := true })
              else acc
            dictModify acc2 child (fun c => { c with parent := some node_name })) interA
      let inter3 :=
        match first_marked_ancestor with
        | none => inter2
        | some anc =>
          let interB := dictModify inter2 node_name (fun nd => { nd with parent := some anc })
          update_node_children_in_tree_dict interB (some anc) first_marked_children [node_name]
      let track2 := dictModify tracking_tree node_name (fun nd => { nd with marked := some true })
      { postponed := none, added := some node_name, removed := none, removed_edges := none,
        updated := none, intermediate := inter3, tracking := track2 }
    else
      { postponed := some short_operation, added := some node_name, removed := none,
        removed_edges := none, updated := none,
        intermediate := intermediate_tree, tracking := tracking_tree }
  else if spltd.getD 0 "" = "DEL" then
    let nd := nodeOfD intermediate_tree node_name
    let parent := nd.parent
    let children := nd.children
    if parent = none ∧ 1 < children.length then
      { postponed := some short_operation, added := none, removed := none,
        removed_edges := some [], updated := none,
        intermediate := intermediate_tree, tracking := tracking_tree }
    else
      let inter1 := update_node_children_in_tree_dict intermediate_tree parent [node_name] children
      let inter2 := delChildLoop parent children inter1
      let edges := match parent with
        | some p => children.map (fun c => (c, p))
        | none => []
      let inter3 := dictErase inter2 node_name
      let tnd := nodeOfD tracking_tree node_name
      let track1 := update_node_children_in_tree_dict tracking_tree tnd.parent [node_name] tnd.children
      let track2 := trackReparentLoop tnd.parent tnd.children track1
      let track3 := dictErase track2 node_name
      { postponed := none, added := none, removed := some nd.label,
        removed_edges := some edges, updated := none,
        intermediate := inter3, tracking := track3 }
  else
    let tn := nodeOfD tracking_tree node_name
    { postponed := none, added := none, removed := none, removed_edges := none,
      updated := some node_name,
      intermediate := dictModify intermediate_tree node_name
        (fun nd => { nd with label := tn.label, abstr := tn.abstr }),
      tracking := tracking_tree }

/-- The mutable state threaded through apply_tree_edits. -/
structure ApplyState where
  intermediate : TreeDict
  tracking : TreeDict
  postponed_operations : List String

/-- The retry loop of apply_tree_edits (lines 946-950), embedded with the
exact CPython iterator semantics of a for loop over a list mutated by
remove: the cursor index advances once per iteration against the current
list, so removing the current element makes the loop skip its successor.
Fuel equal to the initial queue length covers every iteration, since the
cursor only grows and the list never does. -/
def retryPostponed : Nat → Nat → ApplyState → ApplyState
  | 0, _, st => st
  | fuel + 1, i, st =>
    if h : i < st.postponed_operations.length then
      let po := st.postponed_operations.get ⟨i, h⟩
      let r := handle_one_operation st.intermediate po st.tracking
      if r.postponed.isSome then
        retryPostponed fuel (i + 1)
          { intermediate := r.intermediate, tracking := r.tracking,
            postponed_operations := st.postponed_operations }
      else
        retryPostponed fuel (i + 1)
          { intermediate := r.intermediate, tracking := r.tracking,
            postponed_operations := st.postponed_operations.erase po }
    else st

/-- The body of the main loop of apply_tree_edits (lines 939-950). -/
def applyStep (st : ApplyState) (operation : String) : ApplyState :=
  let r := handle_one_operation st.intermediate operation st.tracking
  match r.postponed with
  | some p =>
    { intermediate := r.intermediate, tracking := r.tracking,
      postponed_operations := st.postponed_operations ++ [p] }
  | none =>
    retryPostponed st.postponed_operations.length 0
      { intermediate := r.intermediate, tracking := r.tracking,
        postponed_operations := st.postponed_operations }

/-- The final pruning pass of apply_tree_edits (lines 952-953): every
children entry whose recorded child does not point back is dropped. -/
def pruneChildren (d : TreeDict) : TreeDict :=
  d.map (fun p =>
    (p.1, { p.2 with children := p.2.children.filter (fun c =>
      match dictLookup d c with
      | some cd => cd.parent == some p.1
      | none => false) }))

/-- apply_tree_edits (tree_edit_distance.py lines 920-955). -/
def apply_tree_edits (tree_dict : TreeDict) (short_operations : List String)
    (tracking_tree : TreeDict) (stop_index : Nat) : TreeDict :=
  let st0 : ApplyState :=
    { intermediate := tree_dict, tracking := tracking_tree, postponed_operations := [] }
  let stF := (short_operations.take stop_index).foldl applyStep st0
  pruneChildren stF.intermediate

/-- delChildStep does not touch other keys. -/
theorem delChildStep_lookup_ne (par : Option String) (d : TreeDict) (h c : String)
    (hc : c ≠ h) : dictLookup (delChildStep par d h) c = dictLookup d c := by
  cases par <;> simp [delChildStep, dictLookup_modify_ne _ _ _ _ hc]

/-- What delChildStep does to the child it reparents. -/
theorem delChildStep_lookup_self (par : Option String) (d : TreeDict) (h : String) :
    dictLookup (delChildStep par d h) h
      = (dictLookup d h).map (fun cd =>
          match par with
          | some _ => { cd with parent := par }
          | none => { cd with parent := par, root := true }) := by
  cases par with
  | none =>
    simp only [delChildStep, dictLookup_modify_self]
    cases dictLookup d h <;> rfl
  | some p =>
    simp only [delChildStep, dictLookup_modify_self]

/-- The DEL reparenting loop does not touch keys outside the child list. -/
theorem delChildLoop_lookup_ne (par : Option String) (l : List String) (d : TreeDict) (c : String)
    (hc : c ∉ l) : dictLookup (delChildLoop par l d) c = dictLookup d c := by
  induction l generalizing d with
  | nil => rfl
  | cons h t ih =>
    have hch : c ≠ h := fun he => hc (he ▸ List.mem_cons_self h t)
    have hct : c ∉ t := fun he => hc (List.mem_cons_of_mem h he)
    show dictLookup (delChildLoop par t (delChildStep par d h)) c = dictLookup d c
    rw [ih _ hct, delChildStep_lookup_ne _ _ _ _ hch]

/-- delChildStep preserves key presence. -/
theorem delChildStep_isSome (par : Option String) (d : TreeDict) (h c : String) :
    (dictLookup (delChildStep par d h) c).isSome = (dictLookup d c).isSome := by
  cases par <;> simp [delChildStep, dictMem_modify]

/-- After the DEL reparenting loop, every present child of the removed
node points at the removed node former parent, and is promoted to root
when that parent was none. -/
theorem delChildLoop_lookup_mem (par : Option String) (l : List String) (d : TreeDict) (c : String)
    (hc : c ∈ l) (hs : (dictLookup d c).isSome = true) :
    ∃ cd, dictLookup (delChildLoop par l d) c = some cd ∧ cd.parent = par ∧
      (par = none → cd.root = true) := by
  induction l generalizing d with
  | nil => exact absurd hc (List.not_mem_nil c)
  | cons h t ih =>
    by_cases hct : c ∈ t
    · have hs2 : (dictLookup (delChildStep par d h) c).isSome = true := by
        rw [delChildStep_isSome]
        exact hs
      exact ih (delChildStep par d h) hct hs2
    · have hch : c = h := by
        rcases List.mem_cons.mp hc with h1 | h1
        · exact h1
        · exact absurd h1 hct
      subst hch
      obtain ⟨cd0, hcd0⟩ := Option.isSome_iff_exists.mp hs
      show ∃ cd, dictLookup (delChildLoop par t (delChildStep par d c)) c = some cd ∧
        cd.parent = par ∧ (par = none → cd.root = true)
      rw [delChildLoop_lookup_ne _ _ _ _ hct, delChildStep_lookup_self, hcd0]
      cases par with
      | none => exact ⟨_, rfl, rfl, fun _ => rfl⟩
      | some p => exact ⟨_, rfl, rfl, fun hco => by cases hco⟩

/-- update_node_children_in_tree_dict preserves key presence. -/
theorem update_children_isSome (d : TreeDict) (p : Option String) (tr ta : List String)
    (k : String) :
    (dictLookup (update_node_children_in_tree_dict d p tr ta) k).isSome
      = (dictLookup d k).isSome := by
  have h2 := congrArg Option.isSome (update_children_parent_root d p tr ta k)
  simpa using h2

/-- A working tree in which w is a parentless non-root node with two
children while r holds the root flag: a state the ADD branch itself can
produce (a node attached only through marked descendants). -/
def c7Tree : TreeDict :=
  [("r", { label := "r", type := "action", abstr := "c", root := true,
           parent := none, children := [], marked := none }),
   ("w", { label := "w", type := "action", abstr := "c", root := false,
           parent := none, children := ["u", "v"], marked := none }),
   ("u", { label := "u", type := "ingredient", abstr := "x", root := false,
           parent := some "w", children := [], marked := none }),
   ("v", { label := "v", type := "ingredient", abstr := "x", root := false,
           parent := some "w", children := [], marked := none })]

/-- C7 counterexample: handle_one_operation postpones DEL w although w is
not the working tree root (its root flag is false; r is the root): the
code tests for a missing parent pointer, not for the root flag. -/
theorem handle_del_postpone_counterexample :
    (handle_one_operation c7Tree "DEL w" c7Tree).postponed = some "DEL w" ∧
    (nodeOfD c7Tree "w").root = false ∧ (nodeOfD c7Tree "r").root = true := by
  refine ⟨rfl, rfl, rfl⟩

/-- C7 amended: for every working tree and tracking tree, handle_one_operation
on DEL id postpones the operation, returning it with both trees unmutated,
if and only if id HAS NO PARENT in the working tree and has more than one
child (the amendment: the code tests the parent pointer, not the root
flag); otherwise it removes id from the working tree and from the
tracking copy, and reparents the present children of id to its former
parent, promoting them to root when that parent was none. -/
theorem handle_del_spec (inter track : TreeDict) (op n : String) (nd : TNode)
    (hop : splitOnSpace op = ["DEL", n])
    (hn : dictLookup inter n = some nd) :
    ((handle_one_operation inter op track).postponed = some op ↔
      (nd.parent = none ∧ 1 < nd.children.length)) ∧
    ((nd.parent = none ∧ 1 < nd.children.length) →
      (handle_one_operation inter op track).intermediate = inter ∧
      (handle_one_operation inter op track).tracking = track) ∧
    (¬ (nd.parent = none ∧ 1 < nd.children.length) →
      dictLookup (handle_one_operation inter op track).intermediate n = none ∧
      dictLookup (handle_one_operation inter op track).tracking n = none) ∧
    (¬ (nd.parent = none ∧ 1 < nd.children.length) →
      ∀ c ∈ nd.children, c ≠ n → dictMem inter c = true →
        ∃ cd, dictLookup (handle_one_operation inter op track).intermediate c = some cd ∧
          cd.parent = nd.parent ∧ (nd.parent = none → cd.root = true)) := by
  have hnod : nodeOfD inter n = nd := by
    rw [nodeOfD, hn]
    rfl
  have hred : handle_one_operation inter op track =
      (if nd.parent = none ∧ 1 < nd.children.length then
        { postponed := some op, added := none, removed := none,
          removed_edges := some [], updated := none,
          intermediate := inter, tracking := track }
      else
        { postponed := none, added := none, removed := some nd.label,
          removed_edges := some (match nd.parent with
            | some p => nd.children.map (fun c => (c, p))
            | none => []),
          updated := none,
          intermediate := dictErase (delChildLoop nd.parent nd.children
            (update_node_children_in_tree_dict inter nd.parent [n] nd.children)) n,
          tracking := dictErase (trackReparentLoop (nodeOfD track n).parent
            (nodeOfD track n).children
            (update_node_children_in_tree_dict track (nodeOfD track n).parent [n]
              (nodeOfD track n).children)) n }) := by
    unfold handle_one_operation
    rw [hop]
    simp only [List.getD_cons_zero, List.getD_cons_succ]
    rw [if_neg (by decide)]
    rw [if_pos trivial]
    rw [hnod]
  by_cases hcond : nd.parent = none ∧ 1 < nd.children.length
  · rw [hred, if_pos hcond]
    refine ⟨?_, ?_, ?_, ?_⟩
    · simp [hcond]
    · intro _
      exact ⟨rfl, rfl⟩
    · intro hc
      exact absurd hcond hc
    · intro hc
      exact absurd hcond hc
  · rw [hred, if_neg hcond]
    refine ⟨?_, ?_, ?_, ?_⟩
    · simp [hcond]
    · intro hc
      exact absurd hc hcond
    · intro _
      exact ⟨dictLookup_erase_self _ _, dictLookup_erase_self _ _⟩
    · intro _ c hcch hcn hcm
      have hs1 : (dictLookup (update_node_children_in_tree_dict inter nd.parent [n] nd.children)
          c).isSome = true := by
        rw [update_children_isSome]
        exact hcm
      obtain ⟨cd, hcd, hpar, hroot⟩ :=
        delChildLoop_lookup_mem nd.parent nd.children _ c hcch hs1
      refine ⟨cd, ?_, hpar, hroot⟩
      rw [dictLookup_erase_ne _ _ _ hcn, hcd]

/-- The record of node s in twoNodeTree. -/
def twoNodeTreeS : TNode :=
  { label := "s", type := "ingredient", abstr := "x", root := false,
    parent := some "r", children := [], marked := none }

/-- The record of node r in twoNodeTree. -/
def twoNodeTreeR : TNode :=
  { label := "r", type := "action", abstr := "c", root := true,
    parent := none, children := ["s"], marked := none }

/-- A consistent two-node tree: root r with single child s. -/
def twoNodeTree : TreeDict := [("r", twoNodeTreeR), ("s", twoNodeTreeS)]

/-- Witness for handle_del_spec: deleting the leaf s of the two-node tree
is not postponed and removes s from both trees. -/
theorem handle_del_spec_witness :
    dictLookup (handle_one_operation twoNodeTree "DEL s" twoNodeTree).intermediate "s" = none ∧
    dictLookup (handle_one_operation twoNodeTree "DEL s" twoNodeTree).tracking "s" = none :=
  (handle_del_spec twoNodeTree twoNodeTree "DEL s" "s" twoNodeTreeS (by rfl) (by rfl)).2.2.1
    (by decide)

/-- The working tree for the retry-skip scenario: just the root r. -/
def c6Inter : TreeDict :=
  [("r", { label := "r", type := "ingredient", abstr := "x", root := true,
           parent := none, children := [], marked := none })]

/-- Its tracking topology: the final tree has root c with children a, b
and r; only r is marked (present).  ADD a and ADD b must be postponed
(no marked anchor) until ADD c succeeds through its marked descendant r. -/
def c6Track : TreeDict :=
  [("r", { label := "r", type := "ingredient", abstr := "x", root := true,
           parent := some "c", children := [], marked := some true }),
   ("a", { label := "a", type := "ingredient", abstr := "x", root := false,
           parent := some "c", children := [], marked := some false }),
   ("b", { label := "b", type := "ingredient", abstr := "x", root := false,
           parent := some "c", children := [], marked := some false }),
   ("c", { label := "c", type := "ingredient", abstr := "x", root := false,
           parent := none, children := ["a", "b", "r"], marked := some false })]

/-- The applier state after consuming ADD a, ADD b, ADD c: a and b are
postponed first, then the success of ADD c triggers the retry pass. -/
def c6State : ApplyState :=
  (["ADD a", "ADD b", "ADD c"]).foldl applyStep
    { intermediate := c6Inter, tracking := c6Track, postponed_operations := [] }

/-- C6: the retry pass iterates over the postponed queue while removing
from it, so after the successful retry of ADD a the loop cursor skips
ADD b entirely: ADD b stays queued (first conjunct), would succeed if it
were retried (second conjunct), yet node b is absent from the final tree
while a was applied (last two conjuncts).  This contradicts the stated
retry-every-postponed-operation-once contract. -/
theorem retry_skips_queued_operation :
    c6State.postponed_operations = ["ADD b"] ∧
    (handle_one_operation c6State.intermediate "ADD b" c6State.tracking).postponed = none ∧
    dictLookup (apply_tree_edits c6Inter ["ADD a", "ADD b", "ADD c"] c6Track 3) "b" = none ∧
    dictMem (apply_tree_edits c6Inter ["ADD a", "ADD b", "ADD c"] c6Track 3) "a" = true := by
  refine ⟨rfl, rfl, rfl, rfl⟩

/-- A well-formed one-node input tree (suffix a), as prepared for
recombination. -/
def c1Tree : TreeDict :=
  [("r_a", { label := "r", type := "ingredient", abstr := "x", root := true,
             parent := none, children := [], marked := none })]

/-- The tracking topology build_tracking_tree_dict_for_ops produces for
the concrete operation list [remove r_a]: the same node with marked set. -/
def c1Track : TreeDict :=
  [("r_a", { label := "r", type := "ingredient", abstr := "x", root := true,
             parent := none, children := [], marked := some true })]

/-- A two-node working tree: root r with child s. -/
def c1Tree2 : TreeDict :=
  [("r", { label := "r", type := "action", abstr := "c", root := true,
           parent := none, children := ["s"], marked := none }),
   ("s", { label := "s", type := "ingredient", abstr := "x", root := false,
           parent := some "r", children := [], marked := none })]

/-- A tracking topology in which the node x to be added has the marked
descendant s but no marked ancestor. -/
def c1Track2 : TreeDict :=
  [("x", { label := "x", type := "ingredient", abstr := "y", root := false,
           parent := none, children := ["s"], marked := some false }),
   ("s", { label := "s", type := "ingredient", abstr := "x", root := false,
           parent := some "x", children := [], marked := some true })]

/-- C1 counterexample, two parts.  First: applying DEL r_a (the concise
form of the operation list [remove r_a], with the tracking tree built
from it) to the well-formed one-node tree yields the empty structure —
zero nodes carry the root flag, not exactly one.  Second: applying ADD x
anchored only through a marked descendant yields a structure in which x
is a non-root node with no parent at all, so no parent children list
contains it. -/
theorem apply_root_invariant_counterexample :
    rootCount (apply_tree_edits c1Tree ["DEL r_a"] c1Track 1) = 0 ∧
    apply_tree_edits c1Tree ["DEL r_a"] c1Track 1 = [] ∧
    (nodeOfD (apply_tree_edits c1Tree2 ["ADD x"] c1Track2 1) "x").root = false ∧
    (nodeOfD (apply_tree_edits c1Tree2 ["ADD x"] c1Track2 1) "x").parent = none ∧
    dictMem (apply_tree_edits c1Tree2 ["ADD x"] c1Track2 1) "x" = true ∧
    rootCount (apply_tree_edits c1Tree2 ["ADD x"] c1Track2 1) = 1 := by
  refine ⟨rfl, rfl, rfl, rfl, rfl, rfl⟩

/-- dictLookup through a key-preserving entry map. -/
theorem lookup_map_pairs (f : String × TNode → TNode) (d : TreeDict) (k : String) :
    dictLookup (d.map (fun p => (p.1, f p))) k = (dictLookup d k).map (fun nd => f (k, nd)) := by
  induction d with
  | nil => rfl
  | cons p rest ih =>
    obtain ⟨k1, v1⟩ := p
    by_cases h : k1 = k
    · subst h
      simp [dictLookup]
    · simp [dictLookup, h, ih]

/-- dictLookup after the final pruning pass. -/
theorem dictLookup_pruneChildren (d : TreeDict) (k : String) :
    dictLookup (pruneChildren d) k = (dictLookup d k).map (fun nd =>
      { nd with children := nd.children.filter (fun c =>
          match dictLookup d c with
          | some cd => cd.parent == some k
          | none => false) }) := by
  unfold pruneChildren
  exact lookup_map_pairs _ d k

/-- C1 amended: for every initial tree, tracking tree, operation list and
cut index, the structure returned by apply_tree_edits satisfies the
child-side half of the consistency invariant: every entry of every node
children list is a present node whose parent pointer names that node (the
final pruning pass enforces exactly this).  The rest of the original
claim fails, as the counterexample shows: the result need not have
exactly one root-flagged node, and a non-root node need not appear in any
parent children list. -/
theorem apply_children_consistent (td : TreeDict) (ops : List String) (tt : TreeDict) (k : Nat) :
    ∀ n nd, (n, nd) ∈ apply_tree_edits td ops tt k →
      ∀ c ∈ nd.children,
        ∃ cd, dictLookup (apply_tree_edits td ops tt k) c = some cd ∧ cd.parent = some n := by
  intro n nd hmem c hc
  simp only [apply_tree_edits] at hmem ⊢
  generalize hD : (List.foldl applyStep
      { intermediate := td, tracking := tt, postponed_operations := [] }
      (ops.take k)).intermediate = D at hmem ⊢
  simp only [pruneChildren] at hmem
  obtain ⟨⟨n0, nd0⟩, hpD, hpe⟩ := List.mem_map.mp hmem
  obtain ⟨he1, he2⟩ := Prod.mk.injEq .. |>.mp hpe
  subst he1
  subst he2
  obtain ⟨hc1, hc2⟩ := List.mem_filter.mp hc
  cases hcd : dictLookup D c with
  | none =>
    rw [hcd] at hc2
    cases hc2
  | some cd =>
    rw [hcd] at hc2
    have hpar : cd.parent = some (n0, nd0).1 := eq_of_beq hc2
    have hlk : dictLookup (pruneChildren D) c
        = some { cd with children := cd.children.filter (fun c2 =>
            match dictLookup D c2 with
            | some cd2 => cd2.parent == some c
            | none => false) } := by
      rw [dictLookup_pruneChildren, hcd]
      rfl
    exact ⟨_, hlk, hpar⟩

/-- Witness for apply_children_consistent: with no operations, the
two-node tree passes pruning intact, and the child s of the root r is
present with its parent pointer naming r. -/
theorem apply_children_consistent_witness :
    ∃ cd, dictLookup (apply_tree_edits twoNodeTree [] [] 0) "s" = some cd ∧
      cd.parent = some "r" :=
  apply_children_consistent twoNodeTree [] [] 0 "r" twoNodeTreeR (by decide) "s" (by decide)

end CookingTED
